import Mathlib

set_option maxHeartbeats 1000000

namespace MarksQSearch

/-- JSON values as produced by json.load and response.json in logic.py.
Numbers are modelled as integers; no numeric field of this program is
fractional. -/
inductive JVal where
  | null
  | bool (b : Bool)
  | num (n : Int)
  | str (s : String)
  | arr (xs : List JVal)
  | obj (fields : List (String × JVal))

/-- Python dict with string keys, as used for the in-memory cache dict of
logic.py, in insertion order. -/
abbrev Cache := List (String × JVal)

/-- Python d.get(key) on an association-list dict: the unique binding for the
key, none when absent. -/
def dictGet : Cache → String → Option JVal
  | [], _ => none
  | (k, v) :: rest, key => if k = key then some v else dictGet rest key

/-- Python assignment d[key] = val: overwrite the binding in place when the key
exists, else append a new binding (dict insertion order). -/
def dictSet : Cache → String → JVal → Cache
  | [], key, val => [(key, val)]
  | (k, v) :: rest, key, val =>
      if k = key then (k, val) :: rest else (k, v) :: dictSet rest key val

/-- Python truthiness bool(x) of a JSON value. -/
def truthy : JVal → Bool
  | .null => false
  | .bool b => b
  | .num n => n != 0
  | .str s => !(s.isEmpty)
  | .arr xs => !(xs.isEmpty)
  | .obj fs => !(fs.isEmpty)

/-- Python truthiness of an optional value; None is falsy. -/
def truthyOpt : Option JVal → Bool
  | none => false
  | some v => truthy v

/-- Contiguous-sublist test on character lists: Python needle in haystack for
strings. -/
def hasSub (needle : List Char) : List Char → Bool
  | [] => needle.isEmpty
  | c :: rest => needle.isPrefixOf (c :: rest) || hasSub needle rest

/-- Python substring membership test used by the match predicate of
search_questions (logic.py line 175). -/
def pyIn (needle haystack : String) : Bool :=
  hasSub needle.toList haystack.toList

/-- Python str.lower, restricted to ASCII as it acts on this program's keyword
and question-text strings. -/
def pyLower (s : String) : String :=
  String.mk (s.toList.map Char.toLower)

/-- Python dict.get(key, default) on a JSON value. Cached details and API
responses are JSON objects in this program; a non-object receiver would raise
AttributeError in the source and never occurs on the modelled paths. -/
def jGetD (v : JVal) (key : String) (dflt : JVal) : JVal :=
  match v with
  | .obj fields =>
      match dictGet fields key with
      | some w => w
      | none => dflt
  | _ => dflt

/-- Extraction of the question text from a question-detail object, logic.py
line 174: data, then question, then text, defaulting to the empty string. -/
def jText (d : JVal) : String :=
  match jGetD (jGetD (jGetD d "data" (.obj [])) "question" (.obj [])) "text" (.str "") with
  | .str s => s
  | _ => ""

/-- Extraction of the question-id list from a chapter-detail response,
logic.py line 170: data, then questions, defaulting to the empty list; the
question ids are the string elements of that array. -/
def jQuestions (response : JVal) : List String :=
  match jGetD (jGetD response "data" (.obj [])) "questions" (.arr []) with
  | .arr xs => xs.filterMap (fun q => match q with | .str s => some s | _ => none)
  | _ => []

/-- On-disk state of the cache store: the contents of the primary cache file
data/cache.json and of the backup file data/cache.bak. none models a file
that is missing or fails to parse as JSON; load_cache_with_fallback catches
exactly json.JSONDecodeError and FileNotFoundError, identically for both. -/
structure CacheFS where
  primary : Option JVal
  backup : Option JVal

/-- Exception surfaced by the persist path. fasteners InterProcessLock.release
raises threading.ThreadError when the lock was never acquired. -/
inductive PErr where
  | threadError

/-- load_cache_with_fallback, logic.py lines 29-42: read the primary file; on
JSONDecodeError or FileNotFoundError read the backup file; on that also
failing, return an empty dict. -/
def load_cache_with_fallback (primary backup : Option JVal) : JVal :=
  match primary with
  | some v => v
  | none =>
    match backup with
    | some w => w
    | none => .obj []

/-- save_cache_atomic, logic.py lines 45-58. lockFree says whether the
inter-process lock on the cache_file.lock sibling can be acquired within the
10 second bound; fasteners InterProcessLock.acquire returns this Bool on
timeout rather than raising, and the source discards the returned value, so
the temp-file write and the os.replace over the primary file run either way.
The deep copy json.loads of json.dumps of the cache is the identity at the
JSON-value level. The finally block calls lock.release, which raises
threading.ThreadError when the lock was not acquired. -/
def save_cache_atomic (lockFree : Bool) (cache : Cache) (fs : CacheFS) : CacheFS × Option PErr :=
  let acquired := lockFree
  let fs1 : CacheFS := { fs with primary := some (JVal.obj cache) }
  if acquired then (fs1, none) else (fs1, some PErr.threadError)

/-- save_cache_with_backup, logic.py lines 61-66: under the in-process
cache_lock (a no-op in this sequential model), copy the primary file to the
backup path when the primary exists, then save atomically. -/
def save_cache_with_backup (lockFree : Bool) (cache : Cache) (fs : CacheFS) : CacheFS × Option PErr :=
  let fs1 :=
    match fs.primary with
    | some p => { fs with backup := some p }
    | none => fs
  save_cache_atomic lockFree cache fs1

/-- One HTTP interaction observed by fetch_with_retries: a 429 handled by the
in-line status check, a success body, an aiohttp.ClientResponseError raised by
raise_for_status carrying the given status, or another aiohttp.ClientError
such as connection refused or DNS failure. -/
inductive Resp where
  | rateLimited
  | success (body : JVal)
  | respError (status : Nat)
  | clientError

/-- Retry loop of fetch_with_retries, logic.py lines 71-104, run against the
sequence of responses the server yields, threading the current delay. Returns
the list of sleeps performed and the final result. An exhausted response list
yields none; the real loop would still be waiting on the server there, and
every claim supplies a terminating response. -/
def fetchGo : List Resp → Nat → List Nat × Option JVal
  | [], _ => ([], none)
  | .rateLimited :: rest, delay =>
      let r := fetchGo rest (min (delay * 2) 60)
      (delay :: r.1, r.2)
  | .success body :: _, _ => ([], some body)
  | .respError status :: rest, delay =>
      if status = 429 then
        let r := fetchGo rest (min (delay * 2) 60)
        (delay :: r.1, r.2)
      else ([], none)
  | .clientError :: _, _ => ([], none)

/-- fetch_with_retries, logic.py lines 69-104: the local delay starts at
initial_delay 1 on every call and max_delay is 60 (the callers never override
the defaults); the GET branch and the POST branch handle status 429,
raise_for_status and ClientError identically, so the method string does not
affect the retry behaviour. -/
def fetch_with_retries (method : String) (responses : List Resp) : List Nat × Option JVal :=
  fetchGo responses 1

/-- Outcome of one call to fetch_question_details: the returned value, the
cache dict afterwards, how many network requests were issued, and whether
save_cache_with_backup was invoked. -/
structure FQDResult where
  result : Option JVal
  cache : Cache
  netCalls : Nat
  persisted : Bool

/-- Cache key for a question detail, logic.py line 108. -/
def qKey (question_id : String) : String := "question_" ++ question_id

/-- fetch_question_details, logic.py lines 107-125. net gives the value
fetch_with_retries would return for a question id. The source tests the
cached value and the fetched value with Python truthiness, not presence; a
truthy fetched value is stored in the cache and save_cache_with_backup is
called, while a falsy one is returned unchanged without caching. -/
def fetch_question_details (net : String → Option JVal) (question_id : String) (cache : Cache) : FQDResult :=
  let cached := dictGet cache (qKey question_id)
  if truthyOpt cached then
    { result := cached, cache := cache, netCalls := 0, persisted := false }
  else
    match net question_id with
    | some d =>
      if truthy d then
        { result := some d, cache := dictSet cache (qKey question_id) d, netCalls := 1, persisted := true }
      else
        { result := some d, cache := cache, netCalls := 1, persisted := false }
    | none => { result := none, cache := cache, netCalls := 1, persisted := false }

/-- Chapter record as consumed by process_chapter: the fields read from the
chapter object are its id and its title (logic.py lines 164-165). -/
structure Chapter where
  id : String
  title : String

/-- Result of one chapter-detail request as seen by process_chapter: either a
returned value or an exception propagating out of the await, such as
asyncio.TimeoutError from the 60 second total timeout, which is not an
aiohttp.ClientError and is not caught inside fetch_with_retries. -/
inductive FetchOutcome where
  | ret (v : Option JVal)
  | raiseExc

/-- Output directory constant, logic.py line 16. -/
def MATCHING_QUESTIONS_FOLDER : String := "data/matching_questions"

/-- Python replace of every space by an underscore, as applied to the output
file name (logic.py line 179). -/
def pyReplaceSpace (s : String) : String :=
  String.mk (s.toList.map (fun c => if c = ' ' then '_' else c))

/-- Output file path for a matched question, logic.py lines 177-180: the
os.path.join of the output folder with the formatted name, spaces replaced by
underscores. -/
def matchFilename (subject_id chapter_title : String) : String :=
  MATCHING_QUESTIONS_FOLDER ++ "/" ++
    pyReplaceSpace ("matching_questions_" ++ subject_id ++ "_" ++ chapter_title ++ ".json")

/-- Mutable state shared by the chapter tasks of search_questions: the cache
dict, the matching_questions list, the output files written so far as a map
from path to the JSON value last written there, and the number of
progress-callback invocations. -/
structure CrawlState where
  cache : Cache
  matching_questions : List JVal
  files : List (String × JVal)
  progress : Nat

/-- Initial crawl state of one search_questions invocation, logic.py line 149. -/
def initState (cache : Cache) : CrawlState :=
  { cache := cache, matching_questions := [], files := [], progress := 0 }

/-- Handling of one question id inside process_chapter, logic.py lines
171-189: fetch the detail through the cache, and when the result is truthy
and the lowered keyword is a substring of the lowered question text, append
the detail to matching_questions and overwrite the per-chapter output file
with it; the progress callback then fires once regardless of outcome. -/
def questionStep (net : String → Option JVal) (keywords subject_id chapter_title : String)
    (st : CrawlState) (question_id : String) : CrawlState :=
  let fq := fetch_question_details net question_id st.cache
  let st1 : CrawlState := { st with cache := fq.cache }
  let st2 : CrawlState :=
    match fq.result with
    | some d =>
      if truthy d then
        if pyIn (pyLower keywords) (pyLower (jText d)) then
          { st1 with matching_questions := st1.matching_questions ++ [d],
                     files := dictSet st1.files (matchFilename subject_id chapter_title) d }
        else st1
      else st1
    | none => st1
  { st2 with progress := st2.progress + 1 }

/-- Sequential processing of the question ids of one chapter, logic.py lines
171-189; questions within one chapter are processed in listing order. -/
def processQuestions (net : String → Option JVal) (keywords subject_id chapter_title : String) :
    List String → CrawlState → CrawlState
  | [], st => st
  | qid :: rest, st =>
      processQuestions net keywords subject_id chapter_title rest
        (questionStep net keywords subject_id chapter_title st qid)

/-- process_chapter, logic.py lines 162-189: fetch the chapter detail (always
live, never cached); a falsy or absent response skips the chapter; an
exception out of the detail fetch propagates to the enclosing gather. -/
def processChapter (net : String → Option JVal) (detailNet : String → FetchOutcome)
    (keywords subject_id : String) (st : CrawlState) (chapter : Chapter) :
    Except Unit CrawlState :=
  match detailNet chapter.id with
  | .raiseExc => .error ()
  | .ret response =>
    match response with
    | some r =>
      if truthy r then
        .ok (processQuestions net keywords subject_id chapter.title (jQuestions r) st)
      else .ok st
    | none => .ok st

/-- asyncio.gather over the chapter tasks with the default return_exceptions
False, logic.py line 192, in the admissible single-threaded schedule that
runs the chapter coroutines in listing order: the first exception propagates
immediately to the awaiting search_questions, and the remaining chapter tasks
are abandoned when the surrounding run_until_complete returns. The Bool
records whether an exception was caught by the except around the gather. -/
def gatherChapters (net : String → Option JVal) (detailNet : String → FetchOutcome)
    (keywords subject_id : String) : List Chapter → CrawlState → CrawlState × Bool
  | [], st => (st, false)
  | ch :: rest, st =>
    match processChapter net detailNet keywords subject_id st ch with
    | .ok st1 => gatherChapters net detailNet keywords subject_id rest st1
    | .error _ => (st, true)

/-- search_questions, logic.py lines 141-199, with the chapter list already
resolved: an empty chapter list short-circuits to an empty result; otherwise
the chapter tasks run under the gather and the accumulated
matching_questions list is returned even when an exception was caught. -/
def search_questions (net : String → Option JVal) (detailNet : String → FetchOutcome)
    (subject_id keywords : String) (cache : Cache) (chapters : List Chapter) :
    CrawlState × Bool :=
  if chapters.isEmpty then (initState cache, false)
  else gatherChapters net detailNet keywords subject_id chapters (initState cache)

/-- Question-detail object of the shape the remote API returns, with the given
question text. -/
def mkDetail (text : String) : JVal :=
  .obj [("data", .obj [("question", .obj [("text", .str text)])])]

/-- Chapter-detail response listing a single question id. -/
def chDetail (question_id : String) : JVal :=
  .obj [("data", .obj [("questions", .arr [.str question_id])])]

/-- Concrete question detail whose text mentions the keyword newton. -/
def dA : JVal := mkDetail "newton apple"

/-- Concrete question detail for the third chapter, also matching newton. -/
def dC : JVal := mkDetail "newton cannon"

/-- Question network for the three-chapter scenario. -/
def qnetC2 : String → Option JVal := fun qid =>
  if qid = "qa" then some dA else if qid = "qc" then some dC else none

/-- Chapter-detail network for the three-chapter scenario: chapter B raises. -/
def detailNetC2 : String → FetchOutcome := fun cid =>
  if cid = "A" then .ret (some (chDetail "qa"))
  else if cid = "B" then .raiseExc
  else .ret (some (chDetail "qc"))

/-- Three chapters A, B, C for the sibling-isolation scenario. -/
def chaptersC2 : List Chapter := [⟨"A", "TA"⟩, ⟨"B", "TB"⟩, ⟨"C", "TC"⟩]

/-- Question network returning a distinct matching detail per question id. -/
def qnetC3 : String → Option JVal := fun qid =>
  if qid = "q1" then some (mkDetail "newton one") else some (mkDetail "newton two")

theorem dictGet_dictSet_self (c : Cache) (k : String) (v : JVal) :
    dictGet (dictSet c k v) k = some v := by
  induction c with
  | nil => simp [dictSet, dictGet]
  | cons hd tl ih =>
    obtain ⟨k1, v1⟩ := hd
    by_cases h : k1 = k <;> simp [dictSet, dictGet, h, ih]

/-- C5: load never raises and falls back primary, then backup, then empty:
with the primary file readable it returns its content; with the primary
missing or unparsable it returns exactly the backup content; with both
missing or unparsable it returns the empty cache. -/
theorem load_cache_with_fallback_spec (backup : Option JVal) (v w : JVal) :
    load_cache_with_fallback (some v) backup = v
    ∧ load_cache_with_fallback none (some w) = w
    ∧ load_cache_with_fallback none none = JVal.obj [] :=
  ⟨rfl, rfl, rfl⟩

/-- C4: persisting any cache dict with save_cache_with_backup and then loading
with load_cache_with_fallback yields the same mapping, from any prior state
of the two files and whether or not the inter-process lock was free. -/
theorem cache_roundtrip (lockFree : Bool) (cache : Cache) (fs : CacheFS) :
    load_cache_with_fallback ((save_cache_with_backup lockFree cache fs).1).primary
      ((save_cache_with_backup lockFree cache fs).1).backup = JVal.obj cache := by
  obtain ⟨p, b⟩ := fs
  cases p <;> cases lockFree <;>
    simp [save_cache_with_backup, save_cache_atomic, load_cache_with_fallback]

/-- C1: when the inter-process lock cannot be acquired within the 10 second
bound, save_cache_atomic still rewrites the primary cache file, because the
False returned by acquire is discarded, and the error that surfaces is the
ThreadError raised by releasing the unacquired lock, not a LockTimeout
raised before the write. -/
theorem save_cache_atomic_writes_without_lock :
    ((save_cache_atomic false [("k", JVal.str "v")] ⟨some (JVal.obj []), none⟩).1).primary
      = some (JVal.obj [("k", JVal.str "v")])
    ∧ (save_cache_atomic false [("k", JVal.str "v")] ⟨some (JVal.obj []), none⟩).2
      = some PErr.threadError :=
  ⟨rfl, rfl⟩

/-- C2: in the admissible schedule where chapter B raises during its detail
fetch, the exception is caught at the gather and the accumulated partial
results are returned, but chapter C is abandoned: its matching question,
which process_chapter would have found, is missing from the returned list,
contrary to the claim that sibling chapters still complete and their matches
are present. -/
theorem search_questions_abandons_siblings :
    (search_questions qnetC2 detailNetC2 "S1" "newton" [] chaptersC2).2 = true
    ∧ (search_questions qnetC2 detailNetC2 "S1" "newton" [] chaptersC2).1.matching_questions.map jText
      = ["newton apple"]
    ∧ (processChapter qnetC2 detailNetC2 "newton" "S1" (initState []) ⟨"C", "TC"⟩).map
        (fun st => st.matching_questions.map jText) = .ok ["newton cannon"]
    ∧ "newton cannon" ∉
        (search_questions qnetC2 detailNetC2 "S1" "newton" [] chaptersC2).1.matching_questions.map jText := by
  refine ⟨rfl, rfl, rfl, ?_⟩
  decide

/-- C7: a ClientResponseError with any status other than 429 and any low-level
ClientError make fetch_with_retries return None immediately, with no sleep
and without consuming any further response, whatever responses would follow. -/
theorem fetch_no_retry_non429 (method : String) (status : Nat) (hs : status ≠ 429)
    (rest : List Resp) :
    fetch_with_retries method (.respError status :: rest) = ([], none)
    ∧ fetch_with_retries method (.clientError :: rest) = ([], none) := by
  constructor
  · simp [fetch_with_retries, fetchGo, hs]
  · rfl

/-- Witness for the C7 theorem at status 404 with a pending response behind it. -/
theorem fetch_no_retry_non429_witness :
    (404 : Nat) ≠ 429
    ∧ fetch_with_retries "GET" [.respError 404, .success JVal.null] = ([], none) :=
  ⟨by decide, (fetch_no_retry_non429 "GET" 404 (by decide) [.success JVal.null]).1⟩

/-- C10: for a question id absent from the cache whose network fetch returns
None, fetch_question_details returns None, leaves the cache dict unchanged,
issues exactly one network call and never invokes save_cache_with_backup. -/
theorem fetch_question_details_null_no_mutation (net : String → Option JVal)
    (question_id : String) (cache : Cache)
    (h1 : dictGet cache (qKey question_id) = none) (h2 : net question_id = none) :
    fetch_question_details net question_id cache
      = { result := none, cache := cache, netCalls := 1, persisted := false } := by
  simp [fetch_question_details, h1, h2, truthyOpt]

/-- Witness for the C10 theorem on an empty cache and an unavailable question. -/
theorem fetch_question_details_null_no_mutation_witness :
    dictGet ([] : Cache) (qKey "9") = none
    ∧ fetch_question_details (fun _ => none) "9" []
        = { result := none, cache := [], netCalls := 1, persisted := false } :=
  ⟨rfl, fetch_question_details_null_no_mutation (fun _ => none) "9" [] rfl rfl⟩

/-- Counterexample to C9 as stated: the detail of question 1 is present in the
cache, as the falsy JSON object with no fields, yet fetch_question_details
issues a network call, because the source tests the cached value with Python
truthiness rather than presence. -/
theorem fetch_question_details_refetches_falsy :
    dictGet [(qKey "1", JVal.obj [])] (qKey "1") = some (JVal.obj [])
    ∧ (fetch_question_details (fun _ => some dA) "1" [(qKey "1", JVal.obj [])]).netCalls = 1 :=
  ⟨rfl, rfl⟩

/-- C9 amended: a cached truthy detail is returned with no network call and no
mutation; on a cache miss a truthy fetched detail is stored under the
question key and persisted; and after such a miss the second call for the
same id is served from cache, so the two calls together issue exactly one
network call. -/
theorem fetch_question_details_cache_first (net : String → Option JVal)
    (question_id : String) (cache : Cache) :
    (∀ v, dictGet cache (qKey question_id) = some v → truthy v = true →
      fetch_question_details net question_id cache
        = { result := some v, cache := cache, netCalls := 0, persisted := false })
    ∧ (∀ d, dictGet cache (qKey question_id) = none → net question_id = some d →
        truthy d = true →
      fetch_question_details net question_id cache
        = { result := some d, cache := dictSet cache (qKey question_id) d,
            netCalls := 1, persisted := true })
    ∧ (∀ d, dictGet cache (qKey question_id) = none → net question_id = some d →
        truthy d = true →
      (fetch_question_details net question_id
          (fetch_question_details net question_id cache).cache).netCalls = 0
      ∧ (fetch_question_details net question_id cache).netCalls
        + (fetch_question_details net question_id
            (fetch_question_details net question_id cache).cache).netCalls = 1) := by
  refine ⟨?_, ?_, ?_⟩
  · intro v h1 h2
    simp [fetch_question_details, h1, truthyOpt, h2]
  · intro d h1 h2 h3
    simp [fetch_question_details, h1, h2, truthyOpt, h3]
  · intro d h1 h2 h3
    have hfirst : fetch_question_details net question_id cache
        = { result := some d, cache := dictSet cache (qKey question_id) d,
            netCalls := 1, persisted := true } := by
      simp [fetch_question_details, h1, h2, truthyOpt, h3]
    have hget : dictGet (dictSet cache (qKey question_id) d) (qKey question_id) = some d :=
      dictGet_dictSet_self cache (qKey question_id) d
    rw [hfirst]
    constructor
    · simp [fetch_question_details, hget, truthyOpt, h3]
    · simp [fetch_question_details, hget, truthyOpt, h3]

/-- Witness for the C9 amended theorem: a miss stores and persists the fetched
detail, and the follow-up call for the same id issues no network call. -/
theorem fetch_question_details_cache_first_witness :
    dictGet ([] : Cache) (qKey "7") = none
    ∧ truthy dA = true
    ∧ fetch_question_details (fun _ => some dA) "7" []
        = { result := some dA, cache := dictSet [] (qKey "7") dA,
            netCalls := 1, persisted := true }
    ∧ (fetch_question_details (fun _ => some dA) "7"
        (fetch_question_details (fun _ => some dA) "7" []).cache).netCalls = 0 :=
  ⟨rfl, rfl,
   (fetch_question_details_cache_first (fun _ => some dA) "7" []).2.1 dA rfl rfl rfl,
   ((fetch_question_details_cache_first (fun _ => some dA) "7" []).2.2 dA rfl rfl rfl).1⟩

theorem questionStep_cases (net : String → Option JVal) (kw sid title : String)
    (st : CrawlState) (qid : String) :
    (∃ d, (questionStep net kw sid title st qid).matching_questions
            = st.matching_questions ++ [d]
        ∧ (questionStep net kw sid title st qid).files
            = dictSet st.files (matchFilename sid title) d)
    ∨ ((questionStep net kw sid title st qid).matching_questions = st.matching_questions
        ∧ (questionStep net kw sid title st qid).files = st.files) := by
  unfold questionStep
  cases h : (fetch_question_details net qid st.cache).result with
  | none => right; simp [h]
  | some d =>
    by_cases ht : truthy d
    · by_cases hp : pyIn (pyLower kw) (pyLower (jText d))
      · left; exact ⟨d, by simp [h, ht, hp], by simp [h, ht, hp]⟩
      · right; simp [h, ht, hp]
    · right; simp [h, ht]

theorem processQuestions_matching_extend (net : String → Option JVal)
    (kw sid title : String) (qids : List String) : ∀ st : CrawlState,
    ∃ tail, (processQuestions net kw sid title qids st).matching_questions
      = st.matching_questions ++ tail := by
  induction qids with
  | nil => intro st; exact ⟨[], by simp [processQuestions]⟩
  | cons q rest ih =>
    intro st
    simp only [processQuestions]
    obtain ⟨tail2, h2⟩ := ih (questionStep net kw sid title st q)
    rcases questionStep_cases net kw sid title st q with ⟨d, hm, -⟩ | ⟨hm, -⟩
    · exact ⟨d :: tail2, by rw [h2, hm]; simp⟩
    · exact ⟨tail2, by rw [h2, hm]⟩

theorem foldl_lastWrite (l : List JVal) (o : Option JVal) :
    l.foldl (fun _ d => some d) o
      = match l.getLast? with | some d => some d | none => o := by
  induction l generalizing o with
  | nil => rfl
  | cons x xs ih =>
    cases xs with
    | nil => rfl
    | cons y ys =>
      rw [List.foldl_cons, List.getLast?_cons_cons]
      exact ih (some x)

theorem processQuestions_file_foldl (net : String → Option JVal)
    (kw sid title : String) (qids : List String) : ∀ st : CrawlState,
    dictGet (processQuestions net kw sid title qids st).files (matchFilename sid title)
      = ((processQuestions net kw sid title qids st).matching_questions.drop
          st.matching_questions.length).foldl (fun _ d => some d)
          (dictGet st.files (matchFilename sid title)) := by
  induction qids with
  | nil => intro st; simp [processQuestions]
  | cons q rest ih =>
    intro st
    simp only [processQuestions]
    obtain ⟨tail2, htail⟩ :=
      processQuestions_matching_extend net kw sid title rest (questionStep net kw sid title st q)
    have h2 := ih (questionStep net kw sid title st q)
    rcases questionStep_cases net kw sid title st q with ⟨d, hm, hf⟩ | ⟨hm, hf⟩
    · rw [h2, htail, hm, hf, dictGet_dictSet_self]
      have e1 : ((st.matching_questions ++ [d]) ++ tail2).drop
          (st.matching_questions ++ [d]).length = tail2 := List.drop_left _ _
      have e2 : ((st.matching_questions ++ [d]) ++ tail2).drop
          st.matching_questions.length = d :: tail2 := by
        rw [List.append_assoc]
        exact List.drop_left _ _
      rw [e1, e2, List.foldl_cons]
    · rw [h2, htail, hm, hf]

/-- C3: the per-chapter output file name is the deterministic function
matchFilename of subject id and chapter title, and every matched question
overwrites that file, so after processing the chapter the file holds exactly
the most recently matched detail: with no new match the file is untouched,
and with new matches it holds the last one only. -/
theorem chapter_file_holds_last_match (net : String → Option JVal)
    (keywords subject_id chapter_title : String) (qids : List String) (st : CrawlState) :
    (((processQuestions net keywords subject_id chapter_title qids st).matching_questions.drop
        st.matching_questions.length) = [] →
      dictGet (processQuestions net keywords subject_id chapter_title qids st).files
          (matchFilename subject_id chapter_title)
        = dictGet st.files (matchFilename subject_id chapter_title))
    ∧ (∀ d, ((processQuestions net keywords subject_id chapter_title qids st).matching_questions.drop
          st.matching_questions.length).getLast? = some d →
      dictGet (processQuestions net keywords subject_id chapter_title qids st).files
          (matchFilename subject_id chapter_title) = some d) := by
  have h := processQuestions_file_foldl net keywords subject_id chapter_title qids st
  constructor
  · intro he; rw [h, he]; rfl
  · intro d hd; rw [h, foldl_lastWrite, hd]

/-- Witness for the C3 theorem: two successive matches in one chapter leave
the chapter file, whose name has the space of the title replaced by an
underscore, holding only the second detail. -/
theorem chapter_file_holds_last_match_witness :
    ((processQuestions qnetC3 "newton" "S1" "Ch T" ["q1", "q2"]
        (initState [])).matching_questions.drop
        (initState []).matching_questions.length).getLast? = some (mkDetail "newton two")
    ∧ dictGet (processQuestions qnetC3 "newton" "S1" "Ch T" ["q1", "q2"]
        (initState [])).files (matchFilename "S1" "Ch T") = some (mkDetail "newton two") :=
  ⟨rfl, (chapter_file_holds_last_match qnetC3 "newton" "S1" "Ch T" ["q1", "q2"]
      (initState [])).2 (mkDetail "newton two") rfl⟩

theorem min_double_pow (b : Nat) (i : Nat) :
    min (min b 60 * 2 ^ i) 60 = min (b * 2 ^ i) 60 := by
  rcases le_total b 60 with h | h
  · rw [min_eq_left h]
  · rw [min_eq_right h]
    have h2 : 1 ≤ 2 ^ i := Nat.one_le_two_pow
    have h3 : 60 ≤ 60 * 2 ^ i := le_mul_of_one_le_right (by norm_num) h2
    have h4 : 60 ≤ b * 2 ^ i := le_trans h (le_mul_of_one_le_right (by norm_num) h2)
    rw [min_eq_right h3, min_eq_right h4]

theorem fetchGo_replicate (v : JVal) (rest : List Resp) :
    ∀ (k d : Nat), d ≤ 60 →
    fetchGo (List.replicate k .rateLimited ++ .success v :: rest) d
      = ((List.range k).map (fun i => min (d * 2 ^ i) 60), some v) := by
  intro k
  induction k with
  | zero => intro d hd; simp [fetchGo]
  | succ n ih =>
    intro d hd
    rw [List.replicate_succ, List.cons_append]
    simp only [fetchGo]
    rw [ih (min (d * 2) 60) (min_le_right _ _)]
    rw [List.range_succ_eq_map]
    simp only [List.map_cons, List.map_map, Prod.mk.injEq]
    refine ⟨?_, trivial⟩
    have hfun : (fun i => min (min (d * 2) 60 * 2 ^ i) 60)
        = (fun i => min (d * 2 ^ i) 60) ∘ Nat.succ := by
      funext i
      simp only [Function.comp]
      rw [min_double_pow, pow_succ]
      ring_nf
    rw [pow_zero, mul_one, min_eq_left hd, hfun]

theorem backoff_chain (k : Nat) :
    List.Chain' (· ≤ ·) ((List.range k).map (fun i => min (2 ^ i) 60)) := by
  rw [List.chain'_map]
  cases k with
  | zero => simp
  | succ n =>
    rw [List.chain'_range_succ]
    intro m _
    exact min_le_min (Nat.pow_le_pow_right (by norm_num) (Nat.le_succ m)) (le_refl 60)

/-- C6: against any run of k consecutive 429 responses followed by a success,
fetch_with_retries sleeps the doubling sequence min (2 power i) 60, which is
non-decreasing, starts at 1 and is capped at 60, and returns the success
body; the delay is a local starting at the initial value 1 on every call, so
the sequence depends only on the responses of that call. -/
theorem fetch_with_retries_backoff (k : Nat) (v : JVal) (rest : List Resp) (method : String) :
    fetch_with_retries method (List.replicate k .rateLimited ++ .success v :: rest)
      = ((List.range k).map (fun i => min (2 ^ i) 60), some v)
    ∧ List.Chain' (· ≤ ·) ((List.range k).map (fun i => min (2 ^ i) 60))
    ∧ (0 < k → ((List.range k).map (fun i => min (2 ^ i) 60)).head? = some 1)
    ∧ (∀ x ∈ (List.range k).map (fun i => min (2 ^ i) 60), 1 ≤ x ∧ x ≤ 60) := by
  refine ⟨?_, backoff_chain k, ?_, ?_⟩
  · have h := fetchGo_replicate v rest k 1 (by norm_num)
    simpa [fetch_with_retries] using h
  · intro hk
    cases k with
    | zero => exact absurd hk (by simp)
    | succ n => rw [List.range_succ_eq_map]; simp
  · intro x hx
    rw [List.mem_map] at hx
    obtain ⟨i, -, rfl⟩ := hx
    exact ⟨le_min Nat.one_le_two_pow (by norm_num), min_le_right _ _⟩

/-- Witness for the C6 theorem at three rate-limit responses before success:
the sleeps are 1, 2, 4 and the body is returned. -/
theorem fetch_with_retries_backoff_witness :
    fetch_with_retries "POST" (List.replicate 3 .rateLimited ++ .success JVal.null :: [])
      = ((List.range 3).map (fun i => min (2 ^ i) 60), some JVal.null)
    ∧ ((List.range 3).map (fun i => min (2 ^ i) 60)).head? = some 1
    ∧ (1 ≤ min (2 ^ 0) 60 ∧ min (2 ^ 0) 60 ≤ 60) :=
  ⟨(fetch_with_retries_backoff 3 JVal.null [] "POST").1,
   (fetch_with_retries_backoff 3 JVal.null [] "POST").2.2.1 (by decide),
   (fetch_with_retries_backoff 3 JVal.null [] "POST").2.2.2 (min (2 ^ 0) 60) (by decide)⟩

/-- C8: a processed question with truthy detail d is appended to the match
list exactly when the lowered keyword is a substring of the lowered question
text, and on the concrete inputs of the spec the text Newton apostrophe s Law
matches the keywords newton and NEWTON while Gravity does not match newton. -/
theorem keyword_match_predicate (keywords subject_id chapter_title : String) (d : JVal)
    (hd : truthy d = true) :
    (processQuestions (fun _ => some d) keywords subject_id chapter_title ["q0"]
        (initState [])).matching_questions
      = (if pyIn (pyLower keywords) (pyLower (jText d)) then [d] else [])
    ∧ pyIn (pyLower "newton") (pyLower "Newton\x27s Law") = true
    ∧ pyIn (pyLower "NEWTON") (pyLower "Newton\x27s Law") = true
    ∧ pyIn (pyLower "newton") (pyLower "Gravity") = false := by
  refine ⟨?_, by decide, by decide, by decide⟩
  by_cases hp : pyIn (pyLower keywords) (pyLower (jText d)) <;>
    simp [processQuestions, questionStep, fetch_question_details, dictGet, truthyOpt,
      initState, hd, hp]

/-- Witness for the C8 theorem at the detail whose text is Newton apostrophe s
Law and the keyword newton. -/
theorem keyword_match_predicate_witness :
    truthy (mkDetail "Newton\x27s Law") = true
    ∧ (processQuestions (fun _ => some (mkDetail "Newton\x27s Law")) "newton" "S" "T" ["q0"]
        (initState [])).matching_questions
      = (if pyIn (pyLower "newton") (pyLower (jText (mkDetail "Newton\x27s Law")))
          then [mkDetail "Newton\x27s Law"] else []) :=
  ⟨rfl, (keyword_match_predicate "newton" "S" "T" (mkDetail "Newton\x27s Law") rfl).1⟩

end MarksQSearch
